import Mathlib

/-!
Verification of the twitter-info token-metadata analysis core.

The TypeScript sources `src/utils.ts` and `src/fetchTokenMetadata.ts` are
shallowly embedded below: JavaScript strings are Lean `String`s (lists of
characters), the platform client, the network `fetch` primitive and the
`URL` constructor are explicit capabilities collected in an `Env` record,
thrown JavaScript exceptions are `Except` errors, and `undefined`/absent
object fields are `Option`s.
-/

namespace TwitterInfo

/-! ## JavaScript string primitives

`jsIncludes`, `jsEndsWith` and `jsStartsWith` model `String.prototype.includes`,
`endsWith` and `startsWith` (literal code-unit comparisons, embedded as
character-list comparisons). -/

/-- `beginsWithChars hay needle` is true when `needle` heads `hay`. -/
def beginsWithChars : List Char → List Char → Bool
  | _, [] => true
  | [], _ :: _ => false
  | c :: cs, d :: ds => c = d && beginsWithChars cs ds

/-- `containsChars hay needle` is true when `needle` occurs contiguously in `hay`. -/
def containsChars : List Char → List Char → Bool
  | [], needle => beginsWithChars [] needle
  | c :: t, needle => beginsWithChars (c :: t) needle || containsChars t needle

/-- JavaScript `s.includes(sub)`. -/
def jsIncludes (s sub : String) : Bool :=
  containsChars s.data sub.data

/-- JavaScript `s.endsWith(suff)`. -/
def jsEndsWith (s suff : String) : Bool :=
  decide (suff.data.length ≤ s.data.length) &&
  decide (s.data.drop (s.data.length - suff.data.length) = suff.data)

/-- JavaScript `s.startsWith(p)`. -/
def jsStartsWith (s p : String) : Bool :=
  beginsWithChars s.data p.data

/-! ## `utils.ts`: `isSocialMedia` and `isTokenAddressInText` -/

/-- The fixed allow-list from `isSocialMedia` in `src/utils.ts`. -/
def socialMediaDomains : List String :=
  ["instagram.com", "twitter.com", "telegram.org", "t.me",
   "facebook.com", "youtube.com", "gitbook.io"]

/-- `isSocialMedia` from `src/utils.ts`:
`socialMediaDomains.some(domain => hostname.endsWith(domain))`. -/
def isSocialMedia (hostname : String) : Bool :=
  socialMediaDomains.any fun domain => jsEndsWith hostname domain

/-- `isTokenAddressInText` from `src/utils.ts`.  The TypeScript parameter has
type `string | string[]`, embedded as a sum; the dynamically unreachable
`else return false` branch of the source has no typed counterpart. -/
def isTokenAddressInText (tokenAddress : String) (textOrTexts : String ⊕ List String) : Bool :=
  match textOrTexts with
  | Sum.inl text => jsIncludes text tokenAddress
  | Sum.inr texts => texts.any fun text => jsIncludes text tokenAddress

/-! ## base58 decoding (the `bs58` dependency)

`bs58` is the standard `base-x` codec over the Bitcoin alphabet: leading `'1'`
characters become leading zero bytes and the remaining digits are read as one
base-58 number emitted in minimal big-endian base-256 form.  Decoding fails
exactly when some character is outside the alphabet. -/

/-- The 58-character Bitcoin base58 alphabet used by `bs58`. -/
def base58Alphabet : List Char :=
  "123456789ABCDEFGHJKLMNPQRSTUVWXYZabcdefghijkmnopqrstuvwxyz".data

/-- Index of a character in a character list, if present. -/
def digitIndexIn (c : Char) : List Char → Option Nat
  | [] => none
  | d :: ds => if c = d then some 0 else (digitIndexIn c ds).map (· + 1)

/-- The base58 digit value of a character, if it is in the alphabet. -/
def base58Digit (c : Char) : Option Nat :=
  digitIndexIn c base58Alphabet

/-- Whether a character belongs to the base58 alphabet. -/
def isBase58Char (c : Char) : Bool :=
  (base58Digit c).isSome

/-- Number of leading `'1'` characters (each stands for a zero byte). -/
def countLeadingZeroChars : List Char → Nat
  | [] => 0
  | c :: t => if c = '1' then countLeadingZeroChars t + 1 else 0

/-- Minimal big-endian base-256 representation, with structural fuel
(the value itself bounds the number of digits). -/
def natToBytesAux : Nat → Nat → List Nat
  | 0, _ => []
  | fuel + 1, v => if v = 0 then [] else natToBytesAux fuel (v / 256) ++ [v % 256]

/-- Minimal big-endian base-256 representation of a natural number. -/
def natToBytes (v : Nat) : List Nat :=
  natToBytesAux v v

/-- `bs58.decode`: `none` models the exception raised on a character outside
the alphabet; otherwise the byte list of the decoded payload. -/
def base58Decode (s : String) : Option (List Nat) :=
  if s.data.all (fun c => isBase58Char c) then
    let zeroes := countLeadingZeroChars s.data
    let value := s.data.foldl (fun acc c => acc * 58 + (base58Digit c).getD 0) 0
    some (List.replicate zeroes 0 ++ natToBytes value)
  else none

/-- The body of the filter in `extractEd25519PublicKeys`: keep a candidate
when `bs58.decode` succeeds and yields exactly 32 bytes. -/
def isValidBase58Address (candidate : String) : Bool :=
  match base58Decode candidate with
  | some decoded => decide (decoded.length = 32)
  | none => false

/-! ## The regular expression `\b[1-9A-HJ-NP-Za-km-z]{32,44}\b` with flag `g`

`extractEd25519PublicKeys` calls `text.match(pattern)`.  The JavaScript engine
is modelled operationally: `\w` is `[A-Za-z0-9_]`, `\b` tests that word-ness
changes at a position, the bounded quantifier consumes greedily and backtracks,
and the global scan retries at the next position after a failure and resumes
after the end of each match. -/

/-- JavaScript `\w`: ASCII letters, digits, underscore. -/
def isWordChar (c : Char) : Bool :=
  c.isAlphanum || c = '_'

/-- Whether the character at position `i` exists and is a word character. -/
def wordAt (cs : List Char) (i : Nat) : Bool :=
  isWordChar (cs.getD i ' ')

/-- JavaScript `\b` at position `i`. -/
def boundaryAt (cs : List Char) (i : Nat) : Bool :=
  (if i = 0 then false else wordAt cs (i - 1)) != wordAt cs i

/-- Length of the run of base58 characters heading a list. -/
def countRun : List Char → Nat
  | [] => 0
  | c :: t => if isBase58Char c then countRun t + 1 else 0

/-- Length of the run of base58 characters starting at position `i`. -/
def runLen (cs : List Char) (i : Nat) : Nat :=
  countRun (cs.drop i)

/-- Greedy matching of `[base58]{32,44}\b` at position `i`: try to consume
`F` characters first, backtracking one character at a time, never fewer
than 32. -/
def greedyFrom (cs : List Char) (i : Nat) : Nat → Option Nat
  | 0 => none
  | F + 1 =>
    if F + 1 < 32 then none
    else if decide (F + 1 ≤ runLen cs i) && boundaryAt cs (i + (F + 1)) then some (F + 1)
    else greedyFrom cs i F

/-- Attempt the whole pattern at position `i`; returns the match length. -/
def tryMatchAt (cs : List Char) (i : Nat) : Option Nat :=
  if boundaryAt cs i then greedyFrom cs i 44 else none

/-- The global scan: leftmost match, then resume after its end.  `F` is fuel;
`scanMatches` supplies enough for the whole string. -/
def scanFromFuel (cs : List Char) : Nat → Nat → List (Nat × Nat)
  | 0, _ => []
  | F + 1, i =>
    if cs.length ≤ i then []
    else
      match tryMatchAt cs i with
      | some L => (i, L) :: scanFromFuel cs F (i + L)
      | none => scanFromFuel cs F (i + 1)

/-- All matches of the pattern, as (start, length) pairs. -/
def scanMatches (cs : List Char) : List (Nat × Nat) :=
  scanFromFuel cs (cs.length + 1) 0

/-- `text.match(pattern) || []` from `extractEd25519PublicKeys`. -/
def regexMatchList (s : String) : List String :=
  (scanMatches s.data).map fun p => String.mk ((s.data.drop p.1).take p.2)

/-- `extractEd25519PublicKeys` from `src/utils.ts`.  The returned JavaScript
`Set` is embedded as a deduplicated list; only membership is observable. -/
def extractEd25519PublicKeys (input : String ⊕ List String) : List String :=
  let texts := match input with
    | Sum.inl s => [s]
    | Sum.inr l => l
  ((texts.map fun text => (regexMatchList text).filter isValidBase58Address).flatten).dedup

/-! ## Declarative descriptions of the candidate set

`candidateAt` describes, declaratively, where the regular expression above
matches: a base58 block of length 32 to 44 whose neighbouring characters (when
they exist) are not word characters.  `claimCandidateAt` follows the claim's
words instead: neighbouring characters merely non-alphanumeric, so that a
block next to an underscore would also qualify.  The two are compared at a
concrete input below. -/

/-- Declarative form of a regex match at `(i, L)`: all characters base58,
and no word character adjacent on either side. -/
def candidateAt (cs : List Char) (i L : Nat) : Prop :=
  32 ≤ L ∧ L ≤ 44 ∧ i + L ≤ cs.length ∧
  (∀ k, k < L → isBase58Char (cs.getD (i + k) ' ') = true) ∧
  (i = 0 ∨ isWordChar (cs.getD (i - 1) ' ') = false) ∧
  (i + L = cs.length ∨ isWordChar (cs.getD (i + L) ' ') = false)

/-- The candidate description in the claim's own words: boundaries only need
to be non-alphanumeric (an underscore would qualify). -/
def claimCandidateAt (cs : List Char) (i L : Nat) : Prop :=
  32 ≤ L ∧ L ≤ 44 ∧ i + L ≤ cs.length ∧
  (∀ k, k < L → isBase58Char (cs.getD (i + k) ' ') = true) ∧
  (i = 0 ∨ (cs.getD (i - 1) ' ').isAlphanum = false) ∧
  (i + L = cs.length ∨ (cs.getD (i + L) ' ').isAlphanum = false)

instance (cs : List Char) (i L : Nat) : Decidable (candidateAt cs i L) := by
  unfold candidateAt; infer_instance

instance (cs : List Char) (i L : Nat) : Decidable (claimCandidateAt cs i L) := by
  unfold claimCandidateAt; infer_instance

/-! ## `fetchTokenMetadata.ts`: data model

JavaScript values thrown by the platform client or the network layer are
embedded as `JsError`; the fields record exactly the shape inspections the
source performs (`instanceof Error`, string conversion, a structured `errors`
array). -/

/-- One entry of a platform error's `errors` array (`detail` may be absent). -/
structure JsSubError where
  detail : Option String
  message : String
deriving Repr, DecidableEq

/-- A thrown JavaScript value, as far as the source inspects it. -/
structure JsError where
  isErrorInstance : Bool
  toStr : String
  errorsField : Option (List JsSubError)
deriving Repr, DecidableEq

/-- `public_metrics` of a platform user object; every counter may be absent. -/
structure UserPublicMetrics where
  followers_count : Option Nat := none
  following_count : Option Nat := none
  tweet_count : Option Nat := none
deriving Repr, DecidableEq

/-- A platform user object (`user.data`), with the fields the source reads. -/
structure UserData where
  id : String
  name : String
  username : String
  url : Option String := none
  description : Option String := none
  created_at : Option String := none
  verified : Option Bool := none
  verified_type : Option String := none
  public_metrics : Option UserPublicMetrics := none
deriving Repr, DecidableEq

/-- The envelope returned by `userByUsername`; `data` may be absent. -/
structure UserResponse where
  data : Option UserData
deriving Repr, DecidableEq

/-- One raw timeline item, as the source reads it. -/
structure TweetData where
  id : String
  text : String
  created_at : Option String := none
deriving Repr, DecidableEq

/-- The envelope returned by `userTimeline`; the inner array may be absent. -/
structure TimelineResponse where
  data : Option (List TweetData)
deriving Repr, DecidableEq

/-- The `Tweet` interface of `src/fetchTokenMetadata.ts`.  The source copies
`tweet.created_at!` unchecked, so the field stays optional at runtime. -/
structure Tweet where
  id : String
  text : String
  created_at : Option String := none
deriving Repr, DecidableEq

/-- A `fetch` response, with the fields the source reads.
`contentTypeHeader` is `headers.get("content-type")` (`none` models `null`). -/
structure FetchResponse where
  ok : Bool
  status : Nat
  url : String
  contentTypeHeader : Option String := none
deriving Repr, DecidableEq

/-- The result of the `URL` constructor, as far as the source reads it. -/
structure UrlObj where
  hostname : String
deriving Repr, DecidableEq

/-- The external capabilities consumed by the class: the platform client's
two lookups, the network `fetch` primitive (by method and URL), and the `URL`
constructor (`none` models the `TypeError` it throws on unparsable input). -/
structure Env where
  userByUsername : String → Except JsError UserResponse
  userTimeline : String → Nat → Except JsError TimelineResponse
  fetchWith : String → String → Except JsError FetchResponse
  parseUrl : String → Option UrlObj

/-- The `error` member of the `UserProfile` interface. -/
structure ProfileError where
  message : String
  details : String
deriving Repr, DecidableEq

/-- The `UserProfile` interface: every field optional. -/
structure UserProfile where
  id : Option String := none
  name : Option String := none
  username : Option String := none
  url : Option String := none
  description : Option String := none
  followers_count : Option Nat := none
  following_count : Option Nat := none
  tweet_count : Option Nat := none
  date_joined : Option String := none
  verified : Option Bool := none
  verified_type : Option String := none
  error : Option ProfileError := none
deriving Repr, DecidableEq

/-- The `WebsiteVerification` interface.  `isValid` is declared mandatory in
TypeScript, but the orchestrator materialises `{} as WebsiteVerification`
with no fields at all, so at runtime every field may be absent. -/
structure WebsiteVerification where
  isValid : Option Bool := none
  isSecure : Option Bool := none
  status : Option Nat := none
  contentType : Option String := none
  isSocialMedia : Option Bool := none
deriving Repr, DecidableEq

/-- The `Summary` interface. -/
structure Summary where
  userProfile : UserProfile
  websiteVerification : WebsiteVerification
  tokenAddressFound : Bool
  error : Option String := none
deriving Repr, DecidableEq

/-! ## `fetchTokenMetadata.ts`: operations -/

/-- `err.detail || err.message` (an empty `detail` string is falsy). -/
def subErrorText (e : JsSubError) : String :=
  match e.detail with
  | some d => if d = "" then e.message else d
  | none => e.message

/-- `fetchUserProfile`: wraps `userByUsername`; its `try`/`catch` converts
every thrown value into an `error` record, so the embedding is total. -/
def fetchUserProfile (env : Env) (username : String) : UserProfile :=
  match env.userByUsername username with
  | .ok user =>
    match user.data with
    | none =>
      { error := some { message := "User not found",
                        details := "No data returned for username: " ++ username } }
    | some userData =>
      { id := some userData.id
        name := some userData.name
        username := some userData.username
        url := some (userData.url.getD "")
        description := userData.description
        date_joined := userData.created_at
        verified := userData.verified
        verified_type := userData.verified_type
        followers_count := some ((userData.public_metrics.bind
          UserPublicMetrics.followers_count).getD 0)
        following_count := some ((userData.public_metrics.bind
          UserPublicMetrics.following_count).getD 0)
        tweet_count := some ((userData.public_metrics.bind
          UserPublicMetrics.tweet_count).getD 0) }
  | .error e =>
    let errorMessage :=
      if e.isErrorInstance then "Failed to fetch user profile for " ++ username
      else "Failed to fetch user profile"
    let errorDetails :=
      if e.isErrorInstance then
        match e.errorsField with
        | some subErrors => String.intercalate "; " (subErrors.map subErrorText)
        | none => e.toStr
      else ""
    { error := some { message := errorMessage, details := errorDetails } }

/-- `fetchUserTweets`: maps the timeline payload, or rethrows every failure
as `new Error("Failed to fetch tweets")`. -/
def fetchUserTweets (env : Env) (userId : String) (maxResults : Nat) :
    Except JsError (List Tweet) :=
  match env.userTimeline userId maxResults with
  | .ok tweetsResponse =>
    .ok (((tweetsResponse.data.map fun tweets =>
      tweets.map fun tweet =>
        { id := tweet.id, text := tweet.text, created_at := tweet.created_at
          : Tweet }).getD []))
  | .error _ =>
    .error { isErrorInstance := true, toStr := "Error: Failed to fetch tweets",
             errorsField := none }

/-- `makeRequest` inside `verifyWebsite`: a network-level failure is caught
and becomes `null`. -/
def makeRequest (env : Env) (finalUrl method : String) : Option FetchResponse :=
  match env.fetchWith method finalUrl with
  | .ok response => some response
  | .error _ => none

/-- The working URL: the input itself when `new URL(url)` parses, otherwise
`"https://" ++ url`. -/
def finalUrlOf (env : Env) (url : String) : String :=
  match env.parseUrl url with
  | some _ => url
  | none => "https://" ++ url

/-- `urlObj.hostname.replace(/^www\./, "").toLowerCase()`. -/
def stripWwwToLower (hostname : String) : String :=
  (if jsStartsWith hostname "www." then String.mk (hostname.data.drop 4)
   else hostname).toLower

/-- `response.headers.get("content-type") || undefined`: an absent header or
an empty header value both yield an absent field. -/
def headerOrNone (h : Option String) : Option String :=
  match h with
  | some ct => if ct = "" then none else some ct
  | none => none

/-- The `try` block of `verifyWebsite`, given the working URL: HEAD first,
replaced by GET when HEAD is `null` or not ok; a raised error stands for the
paths that reach the `catch`. -/
def verifyWebsiteTry (env : Env) (finalUrl : String) :
    Except JsError WebsiteVerification :=
  let response0 := makeRequest env finalUrl "HEAD"
  let response := match response0 with
    | some r => if r.ok then response0 else makeRequest env finalUrl "GET"
    | none => makeRequest env finalUrl "GET"
  match response with
  | none =>
    .error { isErrorInstance := true,
             toStr := "Error: Both HEAD and GET requests failed.",
             errorsField := none }
  | some r =>
    match env.parseUrl r.url with
    | none =>
      .error { isErrorInstance := true, toStr := "TypeError: Invalid URL",
               errorsField := none }
    | some urlObj =>
      .ok { isValid := some r.ok
            isSecure := some (jsStartsWith r.url "https://")
            status := some r.status
            contentType := headerOrNone r.contentTypeHeader
            isSocialMedia := some (isSocialMedia (stripWwwToLower urlObj.hostname)) }

/-- `verifyWebsite`: the `catch` converts any raised failure into the bare
`{isValid: false}` verdict. -/
def verifyWebsite (env : Env) (url : String) : WebsiteVerification :=
  match verifyWebsiteTry env (finalUrlOf env url) with
  | .ok v => v
  | .error _ => { isValid := some false }

/-- The fixed fallback message emitted when the tweet fetch fails. -/
def tweetsFailMessage : String :=
  "Failed to fetch tweets. Token address not found in profile or tweets could not be fetched."

/-- The generic message of the orchestrator's outermost `catch`. -/
def genericFailMessage : String :=
  "An error occurred while generating the summary."

/-- The `try` block of `generateSummary`: a raised error would stand for any
failure reaching the orchestrator's outermost `catch`. -/
def generateSummaryTry (env : Env) (username tokenAddress : String) :
    Except JsError Summary :=
  let userProfile := fetchUserProfile env username
  match userProfile.error with
  | some profileError =>
    .ok { userProfile := userProfile, websiteVerification := {},
          tokenAddressFound := false, error := some profileError.message }
  | none =>
    let profileDescription := userProfile.description.getD ""
    if isTokenAddressInText tokenAddress (Sum.inl profileDescription) then
      let websiteVerification := verifyWebsite env (userProfile.url.getD "")
      .ok { userProfile := userProfile, websiteVerification := websiteVerification,
            tokenAddressFound := true }
    else
      match fetchUserTweets env (userProfile.id.getD "") 10 with
      | .ok tweets =>
        let tweetsText := tweets.map Tweet.text
        let tokenInTweets := isTokenAddressInText tokenAddress (Sum.inr tweetsText)
        let websiteVerification := verifyWebsite env (userProfile.url.getD "")
        .ok { userProfile := userProfile, websiteVerification := websiteVerification,
              tokenAddressFound := tokenInTweets }
      | .error _ =>
        let websiteVerification := verifyWebsite env (userProfile.url.getD "")
        .ok { userProfile := userProfile, websiteVerification := websiteVerification,
              tokenAddressFound := false, error := some tweetsFailMessage }

/-- `generateSummary`, the public entry point: the outermost `catch` converts
a raised failure into the generic summary. -/
def generateSummary (env : Env) (username tokenAddress : String) : Summary :=
  match generateSummaryTry env username tokenAddress with
  | .ok s => s
  | .error _ =>
    { userProfile := {}, websiteVerification := {},
      tokenAddressFound := false, error := some genericFailMessage }

/-! ## Concrete environments used to instantiate the theorems -/

/-- Engagement counters for the sample user. -/
def sampleMetrics : UserPublicMetrics :=
  { followers_count := some 10, following_count := some 5, tweet_count := some 7 }

/-- A sample platform user whose description mentions a token. -/
def sampleUser : UserData :=
  { id := "42", name := "Alice", username := "alice",
    url := some "https://site.example/", description := some "Check token XYZ",
    created_at := some "2020-01-01", verified := some false, verified_type := none,
    public_metrics := some sampleMetrics }

/-- A plain network failure value. -/
def netErr : JsError :=
  { isErrorInstance := true, toStr := "Error: network down", errorsField := none }

/-- Profile resolves, timeline succeeds with one tweet, every probe fails,
no URL parses. -/
def envA : Env :=
  { userByUsername := fun _ => .ok { data := some sampleUser }
    userTimeline := fun _ _ => .ok
      { data := some [{ id := "1", text := "hello world", created_at := some "2020-01-02" }] }
    fetchWith := fun _ _ => .error netErr
    parseUrl := fun _ => none }

/-- Like `envA` but the timeline lookup raises. -/
def envD : Env :=
  { envA with userTimeline := fun _ _ => .error netErr }

/-- Like `envA` but the platform reports no data for any handle. -/
def envNotFound : Env :=
  { envA with userByUsername := fun _ => .ok { data := none } }

/-- Like `envA` but the profile lookup raises. -/
def envLookupFail : Env :=
  { envA with userByUsername := fun _ => .error netErr }

/-- HEAD yields a usable 404 response, GET fails at the network level,
every URL parses. -/
def envHeadOnly : Env :=
  { envA with
    fetchWith := fun method _ =>
      if method = "HEAD" then
        .ok { ok := false, status := 404, url := "https://site.example/",
              contentTypeHeader := some "text/html" }
      else .error netErr
    parseUrl := fun _ => some { hostname := "site.example" } }

/-- Both probes fail at the network level, every URL parses. -/
def envBothFail : Env :=
  { envA with parseUrl := fun _ => some { hostname := "site.example" } }

/-- HEAD succeeds with a 200 response on a www-host, every URL parses. -/
def envHeadOk : Env :=
  { envA with
    fetchWith := fun method _ =>
      if method = "HEAD" then
        .ok { ok := true, status := 200, url := "https://www.instagram.com/x",
              contentTypeHeader := some "text/html" }
      else .error netErr
    parseUrl := fun _ => some { hostname := "www.instagram.com" } }

/-! ## Lemmas about the character-level primitives -/

theorem mem_of_digitIndexIn {c : Char} :
    ∀ {l : List Char} {n : Nat}, digitIndexIn c l = some n → c ∈ l := by
  intro l
  induction l with
  | nil => intro n h; simp [digitIndexIn] at h
  | cons d ds ih =>
    intro n h
    by_cases hc : c = d
    · simp [hc]
    · simp only [digitIndexIn, if_neg hc, Option.map_eq_some'] at h
      obtain ⟨m, hm, _⟩ := h
      exact List.mem_cons_of_mem d (ih hm)

theorem isWordChar_of_isBase58Char {c : Char} (h : isBase58Char c = true) :
    isWordChar c = true := by
  have hmem : c ∈ base58Alphabet := by
    unfold isBase58Char base58Digit at h
    obtain ⟨n, hn⟩ := Option.isSome_iff_exists.mp h
    exact mem_of_digitIndexIn hn
  have hall : base58Alphabet.all isWordChar = true := by decide
  exact List.all_eq_true.mp hall c hmem

theorem countRun_le_length : ∀ l : List Char, countRun l ≤ l.length := by
  intro l
  induction l with
  | nil => simp [countRun]
  | cons c t ih =>
    by_cases hc : isBase58Char c = true
    · simpa [countRun, hc] using ih
    · simp [countRun, hc]

theorem base58_of_lt_countRun :
    ∀ (l : List Char) (k : Nat), k < countRun l → isBase58Char (l.getD k ' ') = true := by
  intro l
  induction l with
  | nil => intro k hk; simp [countRun] at hk
  | cons c t ih =>
    intro k hk
    by_cases hc : isBase58Char c = true
    · cases k with
      | zero => simpa using hc
      | succ k =>
        simp only [countRun, if_pos hc] at hk
        simpa using ih k (by omega)
    · simp [countRun, hc] at hk

theorem countRun_eq_of :
    ∀ (l : List Char) (n : Nat),
      (∀ k, k < n → isBase58Char (l.getD k ' ') = true) →
      (n = l.length ∨ isBase58Char (l.getD n ' ') = false) →
      countRun l = n := by
  intro l
  induction l with
  | nil =>
    intro n h1 h2
    cases n with
    | zero => simp [countRun]
    | succ n =>
      have := h1 0 (by omega)
      rw [List.getD_nil] at this
      exact absurd this (by decide)
  | cons c t ih =>
    intro n h1 h2
    cases n with
    | zero =>
      rcases h2 with h2 | h2
      · simp at h2
      · simp only [List.getD_cons_zero] at h2
        simp [countRun, h2]
    | succ n =>
      have hc : isBase58Char c = true := by simpa using h1 0 (by omega)
      have ht : countRun t = n := by
        apply ih
        · intro k hk; simpa using h1 (k + 1) (by omega)
        · rcases h2 with h2 | h2
          · left; simpa using h2
          · right; simpa using h2
      simp [countRun, hc, ht]

theorem getD_drop :
    ∀ (cs : List Char) (i k : Nat) (d : Char), (cs.drop i).getD k d = cs.getD (i + k) d := by
  intro cs
  induction cs with
  | nil => intro i k d; simp
  | cons c t ih =>
    intro i k d
    cases i with
    | zero => simp
    | succ i =>
      rw [List.drop_succ_cons, ih i k d, Nat.succ_add, List.getD_cons_succ]

theorem getD_of_length_le :
    ∀ (l : List Char) (n : Nat), l.length ≤ n → l.getD n ' ' = ' ' := by
  intro l
  induction l with
  | nil => intro n _; simp
  | cons c t ih =>
    intro n h
    cases n with
    | zero => simp at h
    | succ n => simpa using ih n (by simpa using h)

theorem getD_mem :
    ∀ (l : List Char) (n : Nat), n < l.length → l.getD n ' ' ∈ l := by
  intro l
  induction l with
  | nil => intro n h; simp at h
  | cons c t ih =>
    intro n h
    cases n with
    | zero => simp
    | succ n =>
      simp only [List.getD_cons_succ]
      exact List.mem_cons_of_mem c (ih n (by simpa using h))

/-! ## Lemmas about the regex matcher -/

theorem greedyFrom_eq_some {cs : List Char} {i : Nat} :
    ∀ {F L : Nat}, greedyFrom cs i F = some L →
      32 ≤ L ∧ L ≤ F ∧ L ≤ runLen cs i ∧ boundaryAt cs (i + L) = true := by
  intro F
  induction F with
  | zero => intro L h; simp [greedyFrom] at h
  | succ F ih =>
    intro L h
    by_cases h1 : F + 1 < 32
    · simp [greedyFrom, h1] at h
    · by_cases h2 : (decide (F + 1 ≤ runLen cs i) && boundaryAt cs (i + (F + 1))) = true
      · rw [greedyFrom, if_neg h1, if_pos h2] at h
        obtain ⟨hrun, hb⟩ := Bool.and_eq_true_iff.mp h2
        obtain rfl : F + 1 = L := by simpa using h
        exact ⟨by omega, le_refl _, of_decide_eq_true hrun, hb⟩
      · rw [greedyFrom, if_neg h1, if_neg h2] at h
        obtain ⟨ha, hb, hc, hd⟩ := ih h
        exact ⟨ha, by omega, hc, hd⟩

theorem greedyFrom_complete {cs : List Char} {i L : Nat} (h32 : 32 ≤ L)
    (hrun : runLen cs i = L) (hb : boundaryAt cs (i + L) = true) :
    ∀ F, L ≤ F → greedyFrom cs i F = some L := by
  intro F
  induction F with
  | zero => intro hF; omega
  | succ F ih =>
    intro hF
    by_cases heq : L = F + 1
    · subst heq
      have hcond : (decide (F + 1 ≤ runLen cs i) && boundaryAt cs (i + (F + 1))) = true := by
        rw [hrun]; simp [hb]
      rw [greedyFrom, if_neg (by omega), if_pos hcond]
    · have hlt : L ≤ F := by omega
      have hcond : (decide (F + 1 ≤ runLen cs i) && boundaryAt cs (i + (F + 1))) = false := by
        rw [hrun]
        have : ¬ (F + 1 ≤ L) := by omega
        simp [this]
      rw [greedyFrom, if_neg (by omega), if_neg (by simp [hcond]), ih hlt]

theorem tryMatchAt_some {cs : List Char} {i L : Nat} (h : tryMatchAt cs i = some L) :
    candidateAt cs i L := by
  unfold tryMatchAt at h
  by_cases hb : boundaryAt cs i = true
  case neg => simp [hb] at h
  rw [if_pos hb] at h
  obtain ⟨h32, h44, hrun, hbe⟩ := greedyFrom_eq_some h
  have hdroplen : runLen cs i ≤ cs.length - i := by
    have := countRun_le_length (cs.drop i)
    simpa [runLen, List.length_drop] using this
  have hlen : i + L ≤ cs.length := by omega
  have hchars : ∀ k, k < L → isBase58Char (cs.getD (i + k) ' ') = true := by
    intro k hk
    have := base58_of_lt_countRun (cs.drop i) k (by
      have : k < runLen cs i := by omega
      simpa [runLen] using this)
    rwa [getD_drop] at this
  have hw0 : wordAt cs i = true := by
    have := isWordChar_of_isBase58Char (by simpa using hchars 0 (by omega))
    simpa [wordAt] using this
  have hleft : i = 0 ∨ isWordChar (cs.getD (i - 1) ' ') = false := by
    by_cases hi : i = 0
    · exact Or.inl hi
    · right
      unfold boundaryAt at hb
      rw [if_neg hi, hw0] at hb
      cases hcase : wordAt cs (i - 1) with
      | false => simpa [wordAt] using hcase
      | true => rw [hcase] at hb; simp at hb
  have hright : i + L = cs.length ∨ isWordChar (cs.getD (i + L) ' ') = false := by
    right
    have hwprev : wordAt cs (i + L - 1) = true := by
      have hbc := hchars (L - 1) (by omega)
      have hidx : i + (L - 1) = i + L - 1 := by omega
      rw [hidx] at hbc
      simpa [wordAt] using isWordChar_of_isBase58Char hbc
    unfold boundaryAt at hbe
    rw [if_neg (by omega), hwprev] at hbe
    cases hcase : wordAt cs (i + L) with
    | false => simpa [wordAt] using hcase
    | true => rw [hcase] at hbe; simp at hbe
  exact ⟨h32, h44, hlen, hchars, hleft, hright⟩

theorem tryMatchAt_complete {cs : List Char} {i L : Nat} (h : candidateAt cs i L) :
    tryMatchAt cs i = some L := by
  obtain ⟨h32, h44, hlen, hchars, hleft, hright⟩ := h
  have hw0 : wordAt cs i = true := by
    have := isWordChar_of_isBase58Char (by simpa using hchars 0 (by omega))
    simpa [wordAt] using this
  have hwlast : wordAt cs (i + L - 1) = true := by
    have hbc := hchars (L - 1) (by omega)
    have hidx : i + (L - 1) = i + L - 1 := by omega
    rw [hidx] at hbc
    simpa [wordAt] using isWordChar_of_isBase58Char hbc
  have hwafter : wordAt cs (i + L) = false := by
    rcases hright with hend | hnw
    · have hsp : cs.getD (i + L) ' ' = ' ' := getD_of_length_le cs (i + L) (by omega)
      unfold wordAt
      rw [hsp]
      decide
    · simpa [wordAt] using hnw
  have hbL : boundaryAt cs (i + L) = true := by
    unfold boundaryAt
    rw [if_neg (by omega), hwlast, hwafter]
    rfl
  have hb0 : boundaryAt cs i = true := by
    unfold boundaryAt
    by_cases hi : i = 0
    · rw [if_pos hi, hw0]; subst hi; rfl
    · rcases hleft with hz | hnw
      · exact absurd hz hi
      · rw [if_neg hi, hw0]
        have : wordAt cs (i - 1) = false := by simpa [wordAt] using hnw
        rw [this]; rfl
  have hrun : runLen cs i = L := by
    unfold runLen
    apply countRun_eq_of
    · intro k hk; rw [getD_drop]; exact hchars k hk
    · rcases hright with hend | hnw
      · left; simp [List.length_drop]; omega
      · right
        rw [getD_drop]
        cases hcase : isBase58Char (cs.getD (i + L) ' ') with
        | false => rfl
        | true =>
          have := isWordChar_of_isBase58Char hcase
          rw [hnw] at this
          simp at this
  unfold tryMatchAt
  rw [if_pos hb0]
  exact greedyFrom_complete h32 hrun hbL 44 h44

theorem candidateAt_disjoint {cs : List Char} {i L j L' : Nat}
    (h1 : candidateAt cs i L) (h2 : candidateAt cs j L') (hij : i < j) : i + L ≤ j := by
  by_contra hcon
  push_neg at hcon
  obtain ⟨_, _, _, hchars1, _, _⟩ := h1
  obtain ⟨_, _, _, _, hleft2, _⟩ := h2
  rcases hleft2 with hj0 | hnw
  · omega
  · have hbc : isBase58Char (cs.getD (i + (j - 1 - i)) ' ') = true :=
      hchars1 (j - 1 - i) (by omega)
    rw [show i + (j - 1 - i) = j - 1 by omega] at hbc
    have := isWordChar_of_isBase58Char hbc
    rw [hnw] at this
    simp at this

theorem scanFromFuel_mem (cs : List Char) :
    ∀ (F i j L : Nat), cs.length - i < F →
      ((j, L) ∈ scanFromFuel cs F i ↔ i ≤ j ∧ candidateAt cs j L) := by
  intro F
  induction F with
  | zero => intro i j L h; omega
  | succ F ih =>
    intro i j L hF
    by_cases hend : cs.length ≤ i
    · rw [scanFromFuel, if_pos hend]
      simp only [List.not_mem_nil, false_iff]
      rintro ⟨hij, h32, _, hlen, _⟩
      omega
    · push_neg at hend
      cases hm : tryMatchAt cs i with
      | some L0 =>
        have hc0 := tryMatchAt_some hm
        have hL0pos : 0 < L0 := by obtain ⟨h32, _⟩ := hc0; omega
        rw [scanFromFuel, if_neg (by omega), hm]
        simp only [List.mem_cons]
        constructor
        · rintro (heq | hmem)
          · rw [Prod.mk.injEq] at heq
            obtain ⟨rfl, rfl⟩ := heq
            exact ⟨le_refl _, hc0⟩
          · have := (ih (i + L0) j L (by omega)).mp hmem
            exact ⟨by omega, this.2⟩
        · rintro ⟨hij, hc⟩
          by_cases hji : j = i
          · subst hji
            have := tryMatchAt_complete hc
            rw [hm] at this
            injection this with hL
            exact Or.inl (by rw [hL])
          · have hlt : i < j := by omega
            have hsep : i + L0 ≤ j := candidateAt_disjoint hc0 hc hlt
            exact Or.inr ((ih (i + L0) j L (by omega)).mpr ⟨hsep, hc⟩)
      | none =>
        rw [scanFromFuel, if_neg (by omega), hm]
        rw [ih (i + 1) j L (by omega)]
        constructor
        · rintro ⟨h1, h2⟩; exact ⟨by omega, h2⟩
        · rintro ⟨hij, hc⟩
          have hji : j ≠ i := by
            rintro rfl
            have := tryMatchAt_complete hc
            rw [hm] at this
            cases this
          exact ⟨by omega, hc⟩

theorem scanMatches_mem (cs : List Char) (j L : Nat) :
    (j, L) ∈ scanMatches cs ↔ candidateAt cs j L := by
  unfold scanMatches
  rw [scanFromFuel_mem cs (cs.length + 1) 0 j L (by omega)]
  simp

theorem mem_regexMatchList (s c : String) :
    c ∈ regexMatchList s ↔
      ∃ i L, candidateAt s.data i L ∧ c.data = (s.data.drop i).take L := by
  unfold regexMatchList
  rw [List.mem_map]
  constructor
  · rintro ⟨⟨i, L⟩, hmem, rfl⟩
    exact ⟨i, L, (scanMatches_mem s.data i L).mp hmem, rfl⟩
  · rintro ⟨i, L, hc, hdata⟩
    refine ⟨(i, L), (scanMatches_mem s.data i L).mpr hc, ?_⟩
    apply String.ext
    simpa using hdata.symm

theorem mem_extract_single (s c : String) :
    c ∈ extractEd25519PublicKeys (Sum.inl s) ↔
      c ∈ regexMatchList s ∧ isValidBase58Address c = true := by
  unfold extractEd25519PublicKeys
  rw [List.mem_dedup]
  simp [List.mem_filter]

/-! ## Lemmas about the string primitives -/

theorem beginsWithChars_iff :
    ∀ (hay needle : List Char),
      beginsWithChars hay needle = true ↔ ∃ rest, hay = needle ++ rest := by
  intro hay needle
  induction needle generalizing hay with
  | nil => simp [beginsWithChars]
  | cons d ds ih =>
    cases hay with
    | nil => simp [beginsWithChars]
    | cons c cs =>
      simp only [beginsWithChars, Bool.and_eq_true, decide_eq_true_eq, ih,
        List.cons_append, List.cons.injEq]
      constructor
      · rintro ⟨rfl, rest, rfl⟩; exact ⟨rest, rfl, rfl⟩
      · rintro ⟨rest, rfl, rfl⟩; exact ⟨rfl, rest, rfl⟩

theorem containsChars_iff :
    ∀ (hay needle : List Char),
      containsChars hay needle = true ↔ ∃ p q, hay = p ++ needle ++ q := by
  intro hay needle
  induction hay with
  | nil =>
    simp only [containsChars, beginsWithChars_iff]
    constructor
    · rintro ⟨rest, h⟩
      exact ⟨[], rest, by simpa using h⟩
    · rintro ⟨p, q, h⟩
      obtain ⟨hpn, hq⟩ := List.append_eq_nil.mp h.symm
      obtain ⟨hp, hn⟩ := List.append_eq_nil.mp hpn
      exact ⟨[], by simp [hn]⟩
  | cons c t ih =>
    simp only [containsChars, Bool.or_eq_true, beginsWithChars_iff, ih]
    constructor
    · rintro (⟨rest, hr⟩ | ⟨p, q, hpq⟩)
      · exact ⟨[], rest, by simpa using hr⟩
      · exact ⟨c :: p, q, by simp [hpq]⟩
    · rintro ⟨p, q, hpq⟩
      cases p with
      | nil => exact Or.inl ⟨q, by simpa using hpq⟩
      | cons x xs =>
        simp only [List.cons_append, List.cons.injEq] at hpq
        exact Or.inr ⟨xs, q, hpq.2⟩

theorem jsIncludes_iff (s sub : String) :
    jsIncludes s sub = true ↔ ∃ p q, s.data = p ++ sub.data ++ q :=
  containsChars_iff s.data sub.data

theorem jsIncludes_empty (s : String) : jsIncludes s "" = true := by
  have : ("" : String).data = [] := rfl
  rw [jsIncludes_iff]
  exact ⟨[], s.data, by simp [this]⟩

theorem jsEndsWith_iff (s t : String) :
    jsEndsWith s t = true ↔ ∃ p, s.data = p ++ t.data := by
  unfold jsEndsWith
  simp only [Bool.and_eq_true, decide_eq_true_eq]
  constructor
  · rintro ⟨hle, hdrop⟩
    refine ⟨s.data.take (s.data.length - t.data.length), ?_⟩
    conv_lhs => rw [← List.take_append_drop (s.data.length - t.data.length) s.data]
    rw [hdrop]
  · rintro ⟨p, hp⟩
    have hlen : s.data.length = p.length + t.data.length := by simp [hp]
    constructor
    · omega
    · rw [hp, List.length_append, Nat.add_sub_cancel, List.drop_left]

theorem isTokenAddressInText_empty_inl (s : String) :
    isTokenAddressInText "" (Sum.inl s) = true :=
  jsIncludes_empty s

/-! ## Branch lemmas for the orchestrator -/

theorem generateSummary_of_try (env : Env) (u t : String) (s : Summary)
    (h : generateSummaryTry env u t = .ok s) : generateSummary env u t = s := by
  unfold generateSummary
  rw [h]

theorem generateSummaryTry_err (env : Env) (u t : String) (pe : ProfileError)
    (h : (fetchUserProfile env u).error = some pe) :
    generateSummaryTry env u t =
      .ok { userProfile := fetchUserProfile env u, websiteVerification := {},
            tokenAddressFound := false, error := some pe.message } := by
  simp only [generateSummaryTry]
  rw [h]

theorem generateSummaryTry_inProfile (env : Env) (u t : String)
    (h1 : (fetchUserProfile env u).error = none)
    (h2 : isTokenAddressInText t
      (Sum.inl ((fetchUserProfile env u).description.getD "")) = true) :
    generateSummaryTry env u t =
      .ok { userProfile := fetchUserProfile env u,
            websiteVerification :=
              verifyWebsite env ((fetchUserProfile env u).url.getD ""),
            tokenAddressFound := true } := by
  simp only [generateSummaryTry]
  rw [h1, h2]
  rfl

theorem generateSummaryTry_tweetsOk (env : Env) (u t : String) (tweets : List Tweet)
    (h1 : (fetchUserProfile env u).error = none)
    (h2 : isTokenAddressInText t
      (Sum.inl ((fetchUserProfile env u).description.getD "")) = false)
    (h3 : fetchUserTweets env ((fetchUserProfile env u).id.getD "") 10 = .ok tweets) :
    generateSummaryTry env u t =
      .ok { userProfile := fetchUserProfile env u,
            websiteVerification :=
              verifyWebsite env ((fetchUserProfile env u).url.getD ""),
            tokenAddressFound :=
              isTokenAddressInText t (Sum.inr (tweets.map Tweet.text)) } := by
  simp only [generateSummaryTry]
  rw [h1, h2, h3]
  rfl

theorem generateSummaryTry_tweetsErr (env : Env) (u t : String) (e : JsError)
    (h1 : (fetchUserProfile env u).error = none)
    (h2 : isTokenAddressInText t
      (Sum.inl ((fetchUserProfile env u).description.getD "")) = false)
    (h3 : fetchUserTweets env ((fetchUserProfile env u).id.getD "") 10 = .error e) :
    generateSummaryTry env u t =
      .ok { userProfile := fetchUserProfile env u,
            websiteVerification :=
              verifyWebsite env ((fetchUserProfile env u).url.getD ""),
            tokenAddressFound := false, error := some tweetsFailMessage } := by
  simp only [generateSummaryTry]
  rw [h1, h2, h3]
  rfl

theorem generateSummaryTry_isOk (env : Env) (u t : String) :
    (generateSummaryTry env u t).isOk = true := by
  cases h1 : (fetchUserProfile env u).error with
  | some pe => rw [generateSummaryTry_err env u t pe h1]; rfl
  | none =>
    cases h2 : isTokenAddressInText t
        (Sum.inl ((fetchUserProfile env u).description.getD "")) with
    | true => rw [generateSummaryTry_inProfile env u t h1 h2]; rfl
    | false =>
      cases h3 : fetchUserTweets env ((fetchUserProfile env u).id.getD "") 10 with
      | ok tweets => rw [generateSummaryTry_tweetsOk env u t tweets h1 h2 h3]; rfl
      | error e => rw [generateSummaryTry_tweetsErr env u t e h1 h2 h3]; rfl

/-! ## Branch lemmas for the website verifier -/

theorem makeRequest_ok (env : Env) (fu m : String) (r : FetchResponse)
    (h : env.fetchWith m fu = .ok r) : makeRequest env fu m = some r := by
  unfold makeRequest; rw [h]

theorem makeRequest_err (env : Env) (fu m : String) (e : JsError)
    (h : env.fetchWith m fu = .error e) : makeRequest env fu m = none := by
  unfold makeRequest; rw [h]

theorem verifyWebsiteTry_headOk (env : Env) (fu : String) (r : FetchResponse)
    (uo : UrlObj) (hh : makeRequest env fu "HEAD" = some r) (hok : r.ok = true)
    (hp : env.parseUrl r.url = some uo) :
    verifyWebsiteTry env fu =
      .ok { isValid := some r.ok
            isSecure := some (jsStartsWith r.url "https://")
            status := some r.status
            contentType := headerOrNone r.contentTypeHeader
            isSocialMedia := some (isSocialMedia (stripWwwToLower uo.hostname)) } := by
  simp only [verifyWebsiteTry, hh, hok, hp, if_true]

theorem verifyWebsiteTry_fallback (env : Env) (fu : String) (r : FetchResponse)
    (uo : UrlObj)
    (hh : makeRequest env fu "HEAD" = none ∨
      ∃ r0, makeRequest env fu "HEAD" = some r0 ∧ r0.ok = false)
    (hg : makeRequest env fu "GET" = some r)
    (hp : env.parseUrl r.url = some uo) :
    verifyWebsiteTry env fu =
      .ok { isValid := some r.ok
            isSecure := some (jsStartsWith r.url "https://")
            status := some r.status
            contentType := headerOrNone r.contentTypeHeader
            isSocialMedia := some (isSocialMedia (stripWwwToLower uo.hostname)) } := by
  rcases hh with hh | ⟨r0, hh, hnok⟩
  · simp only [verifyWebsiteTry, hh, hg, hp]
  · simp only [verifyWebsiteTry, hh, hnok, hg, hp, if_false, Bool.false_eq_true]

theorem verifyWebsiteTry_bothFail (env : Env) (fu : String)
    (hh : makeRequest env fu "HEAD" = none ∨
      ∃ r0, makeRequest env fu "HEAD" = some r0 ∧ r0.ok = false)
    (hg : makeRequest env fu "GET" = none) :
    verifyWebsiteTry env fu =
      .error { isErrorInstance := true,
               toStr := "Error: Both HEAD and GET requests failed.",
               errorsField := none } := by
  rcases hh with hh | ⟨r0, hh, hnok⟩
  · simp only [verifyWebsiteTry, hh, hg]
  · simp only [verifyWebsiteTry, hh, hnok, hg, if_false, Bool.false_eq_true]

/-! ## The claims -/

/-- Claim C7: `isSocialMedia h` is true exactly when `h` ends with one of the
seven fixed entries (suffix match), so `evil-instagram.com` is accepted and
`example.com` is not. -/
theorem C7_isSocialMedia_suffix_law :
    (∀ h : String, isSocialMedia h = true ↔
      ∃ d ∈ (["instagram.com", "twitter.com", "telegram.org", "t.me",
              "facebook.com", "youtube.com", "gitbook.io"] : List String),
        ∃ p : List Char, h.data = p ++ d.data) ∧
    isSocialMedia "evil-instagram.com" = true ∧
    isSocialMedia "example.com" = false := by
  refine ⟨?_, by decide, by decide⟩
  intro h
  unfold isSocialMedia socialMediaDomains
  rw [List.any_eq_true]
  constructor
  · rintro ⟨d, hd, hend⟩
    exact ⟨d, hd, (jsEndsWith_iff h d).mp hend⟩
  · rintro ⟨d, hd, p, hp⟩
    exact ⟨d, hd, (jsEndsWith_iff h d).mpr ⟨p, hp⟩⟩

/-- Witness for C7 at a concrete hostname. -/
theorem C7_isSocialMedia_suffix_law_witness : isSocialMedia "sub.t.me" = true :=
  (C7_isSocialMedia_suffix_law.1 "sub.t.me").mpr ⟨"t.me", by decide, "sub.".data, by decide⟩

/-- Claim C10: an empty token address is contained in every single string,
in every non-empty list of strings, and therefore `generateSummary` with an
empty token address reports the token as found whenever the profile lookup
succeeds. -/
theorem C10_empty_token_always_found :
    (∀ s : String, isTokenAddressInText "" (Sum.inl s) = true) ∧
    (∀ l : List String, l ≠ [] → isTokenAddressInText "" (Sum.inr l) = true) ∧
    (∀ (env : Env) (username : String),
      (fetchUserProfile env username).error = none →
      (generateSummary env username "").tokenAddressFound = true) := by
  refine ⟨isTokenAddressInText_empty_inl, ?_, ?_⟩
  · intro l hl
    cases l with
    | nil => exact absurd rfl hl
    | cons x xs =>
      simp only [isTokenAddressInText, List.any_cons, Bool.or_eq_true]
      exact Or.inl (jsIncludes_empty x)
  · intro env username herr
    have hbranch := generateSummary_of_try env username "" _
      (generateSummaryTry_inProfile env username "" herr (isTokenAddressInText_empty_inl _))
    rw [hbranch]

/-- Witness for C10 at a concrete environment. -/
theorem C10_empty_token_always_found_witness :
    (generateSummary envA "alice" "").tokenAddressFound = true :=
  C10_empty_token_always_found.2.2 envA "alice" rfl

/-- Claim C2: no failure escapes the orchestrator: for every environment the
body of `generateSummary` produces a well-formed `Summary`, which the public
entry point returns unchanged. -/
theorem C2_orchestrator_never_raises (env : Env) (username tokenAddress : String) :
    ∃ s : Summary, generateSummaryTry env username tokenAddress = Except.ok s ∧
      generateSummary env username tokenAddress = s := by
  cases h : generateSummaryTry env username tokenAddress with
  | ok s => exact ⟨s, rfl, generateSummary_of_try env username tokenAddress s h⟩
  | error e =>
    have hok := generateSummaryTry_isOk env username tokenAddress
    rw [h] at hok
    simp [Except.isOk, Except.toBool] at hok

/-- Claim C9: a summary that reports the token as found never carries an
error message. -/
theorem C9_found_implies_no_error (env : Env) (username tokenAddress : String)
    (h : (generateSummary env username tokenAddress).tokenAddressFound = true) :
    (generateSummary env username tokenAddress).error = none := by
  cases h1 : (fetchUserProfile env username).error with
  | some pe =>
    have hb := generateSummary_of_try env username tokenAddress _
      (generateSummaryTry_err env username tokenAddress pe h1)
    rw [hb] at h
    simp at h
  | none =>
    cases h2 : isTokenAddressInText tokenAddress
        (Sum.inl ((fetchUserProfile env username).description.getD "")) with
    | true =>
      have hb := generateSummary_of_try env username tokenAddress _
        (generateSummaryTry_inProfile env username tokenAddress h1 h2)
      rw [hb]
    | false =>
      cases h3 : fetchUserTweets env ((fetchUserProfile env username).id.getD "") 10 with
      | ok tweets =>
        have hb := generateSummary_of_try env username tokenAddress _
          (generateSummaryTry_tweetsOk env username tokenAddress tweets h1 h2 h3)
        rw [hb]
      | error e =>
        have hb := generateSummary_of_try env username tokenAddress _
          (generateSummaryTry_tweetsErr env username tokenAddress e h1 h2 h3)
        rw [hb] at h
        simp at h

/-- Witness for C9 at a concrete environment where the token is found. -/
theorem C9_found_implies_no_error_witness :
    (generateSummary envA "alice" "token").error = none :=
  C9_found_implies_no_error envA "alice" "token" rfl

/-- Claim C1: when the profile resolves and its description contains the
token address as a literal substring, the summary reports the token as found
and the timeline capability is never consulted (the result is invariant
under replacing it). -/
theorem C1_token_in_profile_skips_timeline (env : Env) (username tokenAddress : String)
    (h1 : (fetchUserProfile env username).error = none)
    (h2 : ∃ p q : List Char,
      ((fetchUserProfile env username).description.getD "").data =
        p ++ tokenAddress.data ++ q) :
    (generateSummary env username tokenAddress).tokenAddressFound = true ∧
    ∀ tl, generateSummary { env with userTimeline := tl } username tokenAddress =
      generateSummary env username tokenAddress := by
  have hinc : isTokenAddressInText tokenAddress
      (Sum.inl ((fetchUserProfile env username).description.getD "")) = true := by
    obtain ⟨p, q, hpq⟩ := h2
    exact (containsChars_iff _ _).mpr ⟨p, q, hpq⟩
  have hmain := generateSummary_of_try env username tokenAddress _
    (generateSummaryTry_inProfile env username tokenAddress h1 hinc)
  constructor
  · rw [hmain]
  · intro tl
    have hmain2 := generateSummary_of_try { env with userTimeline := tl }
      username tokenAddress _
      (generateSummaryTry_inProfile { env with userTimeline := tl }
        username tokenAddress h1 hinc)
    rw [hmain, hmain2]
    rfl

/-- Witness for C1 at a concrete environment. -/
theorem C1_token_in_profile_skips_timeline_witness :
    (generateSummary envA "alice" "token").tokenAddressFound = true :=
  (C1_token_in_profile_skips_timeline envA "alice" "token" rfl
    ⟨"Check ".data, " XYZ".data, by decide⟩).1

/-- Claim C6: when the profile resolves, the description does not contain
the token, and the timeline lookup raises, the summary still carries the
website verdict, reports the token as not found, and carries exactly the
fixed fallback message. -/
theorem C6_timeline_failure_best_effort (env : Env) (username tokenAddress : String)
    (h1 : (fetchUserProfile env username).error = none)
    (h2 : isTokenAddressInText tokenAddress
      (Sum.inl ((fetchUserProfile env username).description.getD "")) = false)
    (h3 : ∃ e, env.userTimeline ((fetchUserProfile env username).id.getD "") 10 =
      .error e) :
    generateSummary env username tokenAddress =
      { userProfile := fetchUserProfile env username,
        websiteVerification :=
          verifyWebsite env ((fetchUserProfile env username).url.getD ""),
        tokenAddressFound := false,
        error := some "Failed to fetch tweets. Token address not found in profile or tweets could not be fetched." } := by
  obtain ⟨e, he⟩ := h3
  have htw : fetchUserTweets env ((fetchUserProfile env username).id.getD "") 10 =
      .error { isErrorInstance := true, toStr := "Error: Failed to fetch tweets",
               errorsField := none } := by
    unfold fetchUserTweets; rw [he]
  exact generateSummary_of_try env username tokenAddress _
    (generateSummaryTry_tweetsErr env username tokenAddress _ h1 h2 htw)

/-- Witness for C6 at a concrete environment whose timeline lookup raises. -/
theorem C6_timeline_failure_best_effort_witness :
    generateSummary envD "alice" "zzz" =
      { userProfile := fetchUserProfile envD "alice",
        websiteVerification :=
          verifyWebsite envD ((fetchUserProfile envD "alice").url.getD ""),
        tokenAddressFound := false,
        error := some "Failed to fetch tweets. Token address not found in profile or tweets could not be fetched." } :=
  C6_timeline_failure_best_effort envD "alice" "zzz" rfl rfl ⟨netErr, rfl⟩

/-- Claim C5: the profile resolver never raises (it is total by
construction); a no-data reply yields the fixed "User not found" record, any
raised lookup failure yields an error record, and on success the url and the
engagement counters are defaulted when absent. -/
theorem C5_fetchUserProfile_contract (env : Env) (username : String) :
    (env.userByUsername username = .ok { data := none } →
      fetchUserProfile env username =
        { error := some { message := "User not found",
                          details := "No data returned for username: " ++ username } }) ∧
    (∀ e, env.userByUsername username = .error e →
      ∃ pe, (fetchUserProfile env username).error = some pe) ∧
    (∀ d, env.userByUsername username = .ok { data := some d } →
      (fetchUserProfile env username).error = none ∧
      (d.url = none → (fetchUserProfile env username).url = some "") ∧
      (d.public_metrics.bind UserPublicMetrics.followers_count = none →
        (fetchUserProfile env username).followers_count = some 0) ∧
      (d.public_metrics.bind UserPublicMetrics.following_count = none →
        (fetchUserProfile env username).following_count = some 0) ∧
      (d.public_metrics.bind UserPublicMetrics.tweet_count = none →
        (fetchUserProfile env username).tweet_count = some 0)) := by
  refine ⟨?_, ?_, ?_⟩
  · intro h
    unfold fetchUserProfile
    rw [h]
  · intro e h
    exact ⟨_, by unfold fetchUserProfile; rw [h]⟩
  · intro d h
    refine ⟨?_, ?_, ?_, ?_, ?_⟩
    · simp [fetchUserProfile, h]
    · intro hu; simp [fetchUserProfile, h, hu]
    · intro hm; simp [fetchUserProfile, h, hm]
    · intro hm; simp [fetchUserProfile, h, hm]
    · intro hm; simp [fetchUserProfile, h, hm]

/-- Witness for C5 at an environment whose platform reports no data. -/
theorem C5_fetchUserProfile_contract_witness :
    fetchUserProfile envNotFound "bob" =
      { error := some { message := "User not found",
                        details := "No data returned for username: bob" } } :=
  (C5_fetchUserProfile_contract envNotFound "bob").1 rfl

/-- Claim C4: a string over the base58 alphabet of length 32 to 44 is in the
extracted set exactly when it decodes to a 32-byte payload; a decode of any
other length excludes it, and decoding never raises (the embedding is total,
`none` standing for the caught failure). -/
theorem C4_address_validation_soundness (s : String)
    (halpha : ∀ c ∈ s.data, isBase58Char c = true)
    (hlen32 : 32 ≤ s.length) (hlen44 : s.length ≤ 44) :
    s ∈ extractEd25519PublicKeys (Sum.inl s) ↔
      ∃ bytes, base58Decode s = some bytes ∧ bytes.length = 32 := by
  have h32 : 32 ≤ s.data.length := hlen32
  have h44 : s.data.length ≤ 44 := hlen44
  have hmem : s ∈ regexMatchList s := by
    rw [mem_regexMatchList]
    refine ⟨0, s.data.length,
      ⟨h32, h44, by simp, ?_, Or.inl rfl, Or.inl (by simp)⟩, by simp⟩
    intro k hk
    have : s.data.getD (0 + k) ' ' ∈ s.data := by
      simpa using getD_mem s.data k hk
    exact halpha _ this
  rw [mem_extract_single]
  constructor
  · rintro ⟨-, hvalid⟩
    unfold isValidBase58Address at hvalid
    cases hd : base58Decode s with
    | none => rw [hd] at hvalid; simp at hvalid
    | some bytes =>
      rw [hd] at hvalid
      simp only [decide_eq_true_eq] at hvalid
      exact ⟨bytes, rfl, hvalid⟩
  · rintro ⟨bytes, hd, hb⟩
    refine ⟨hmem, ?_⟩
    unfold isValidBase58Address
    rw [hd]
    simp [hb]

/-- Witness for C4: 32 characters `'1'` decode to 32 zero bytes and are
extracted. -/
theorem C4_address_validation_soundness_witness :
    "11111111111111111111111111111111" ∈
      extractEd25519PublicKeys (Sum.inl "11111111111111111111111111111111") :=
  (C4_address_validation_soundness "11111111111111111111111111111111"
    (by decide) (by decide) (by decide)).mpr
    ⟨List.replicate 32 0, by decide, by simp⟩

/-- Claim C8 is false as stated: in `"_" ++ 32 characters "1"`, the base58
block of length 32 is adjacent only to a non-alphanumeric underscore, so by
the claim it is a candidate; but the regex treats the underscore as a word
character, so no word boundary exists and the match list is empty, and the
extracted set is empty although the block decodes to 32 bytes. -/
theorem C8_candidate_set_counterexample :
    claimCandidateAt ("_11111111111111111111111111111111".data) 1 32 ∧
    regexMatchList "_11111111111111111111111111111111" = [] ∧
    extractEd25519PublicKeys (Sum.inl "_11111111111111111111111111111111") = [] := by
  refine ⟨by decide, by decide, by decide⟩

/-- Claim C8 (amended): the candidate set consists exactly of the maximal
base58 blocks of length 32 to 44 bounded on both sides by the string edge or
a non-word character (not a letter, digit, or underscore); a block adjacent
to an underscore is not a candidate. -/
theorem C8_candidate_set_amended (s c : String) :
    c ∈ regexMatchList s ↔
      ∃ i L, candidateAt s.data i L ∧ c.data = (s.data.drop i).take L :=
  mem_regexMatchList s c

/-- Witness for C8 (amended) at a concrete input. -/
theorem C8_candidate_set_amended_witness :
    "11111111111111111111111111111111" ∈
      regexMatchList "_x 11111111111111111111111111111111 y" :=
  (C8_candidate_set_amended "_x 11111111111111111111111111111111 y"
    "11111111111111111111111111111111").mpr ⟨3, 32, by decide, by decide⟩

/-- Claim C3 (amended): assuming the `URL` constructor accepts every
effective URL the probes report, the bare `{isValid: false}` verdict is
returned exactly when the GET fallback fails at the network level after the
HEAD attempt either failed or returned a non-success status; when the HEAD
response is ok the verdict derives from it, and otherwise a usable GET
response supplies the verdict (a usable but non-ok HEAD response is
discarded, not reflected). -/
theorem C3_verifyWebsite_amended (env : Env) (url : String)
    (hparse : ∀ (method : String) (r : FetchResponse),
      env.fetchWith method (finalUrlOf env url) = .ok r →
      (env.parseUrl r.url).isSome = true) :
    (verifyWebsite env url = { isValid := some false } ↔
      ((∃ e, env.fetchWith "HEAD" (finalUrlOf env url) = .error e) ∨
       (∃ r, env.fetchWith "HEAD" (finalUrlOf env url) = .ok r ∧ r.ok = false)) ∧
      (∃ e, env.fetchWith "GET" (finalUrlOf env url) = .error e)) ∧
    (∀ r uo, env.fetchWith "HEAD" (finalUrlOf env url) = .ok r → r.ok = true →
      env.parseUrl r.url = some uo →
      verifyWebsite env url =
        { isValid := some r.ok
          isSecure := some (jsStartsWith r.url "https://")
          status := some r.status
          contentType := headerOrNone r.contentTypeHeader
          isSocialMedia := some (isSocialMedia (stripWwwToLower uo.hostname)) }) ∧
    (∀ r uo,
      ((∃ e, env.fetchWith "HEAD" (finalUrlOf env url) = .error e) ∨
       (∃ r0, env.fetchWith "HEAD" (finalUrlOf env url) = .ok r0 ∧ r0.ok = false)) →
      env.fetchWith "GET" (finalUrlOf env url) = .ok r →
      env.parseUrl r.url = some uo →
      verifyWebsite env url =
        { isValid := some r.ok
          isSecure := some (jsStartsWith r.url "https://")
          status := some r.status
          contentType := headerOrNone r.contentTypeHeader
          isSocialMedia := some (isSocialMedia (stripWwwToLower uo.hostname)) }) := by
  have hderive2 : ∀ r uo, env.fetchWith "HEAD" (finalUrlOf env url) = .ok r →
      r.ok = true → env.parseUrl r.url = some uo →
      verifyWebsite env url =
        { isValid := some r.ok
          isSecure := some (jsStartsWith r.url "https://")
          status := some r.status
          contentType := headerOrNone r.contentTypeHeader
          isSocialMedia := some (isSocialMedia (stripWwwToLower uo.hostname)) } := by
    intro r uo hh hok hp
    have ht := verifyWebsiteTry_headOk env (finalUrlOf env url) r uo
      (makeRequest_ok env (finalUrlOf env url) "HEAD" r hh) hok hp
    unfold verifyWebsite
    rw [ht]
  have hderive3 : ∀ r uo,
      ((∃ e, env.fetchWith "HEAD" (finalUrlOf env url) = .error e) ∨
       (∃ r0, env.fetchWith "HEAD" (finalUrlOf env url) = .ok r0 ∧ r0.ok = false)) →
      env.fetchWith "GET" (finalUrlOf env url) = .ok r →
      env.parseUrl r.url = some uo →
      verifyWebsite env url =
        { isValid := some r.ok
          isSecure := some (jsStartsWith r.url "https://")
          status := some r.status
          contentType := headerOrNone r.contentTypeHeader
          isSocialMedia := some (isSocialMedia (stripWwwToLower uo.hostname)) } := by
    intro r uo hh hg hp
    have hh2 : makeRequest env (finalUrlOf env url) "HEAD" = none ∨
        ∃ r0, makeRequest env (finalUrlOf env url) "HEAD" = some r0 ∧ r0.ok = false := by
      rcases hh with ⟨e, he⟩ | ⟨r0, hr0, hnok⟩
      · exact Or.inl (makeRequest_err env (finalUrlOf env url) "HEAD" e he)
      · exact Or.inr ⟨r0, makeRequest_ok env (finalUrlOf env url) "HEAD" r0 hr0, hnok⟩
    have ht := verifyWebsiteTry_fallback env (finalUrlOf env url) r uo hh2
      (makeRequest_ok env (finalUrlOf env url) "GET" r hg) hp
    unfold verifyWebsite
    rw [ht]
  refine ⟨⟨?_, ?_⟩, hderive2, hderive3⟩
  · intro hfail
    cases hH : env.fetchWith "HEAD" (finalUrlOf env url) with
    | ok r =>
      cases hok : r.ok with
      | true =>
        obtain ⟨uo, huo⟩ := Option.isSome_iff_exists.mp (hparse "HEAD" r hH)
        rw [hderive2 r uo hH hok huo] at hfail
        simp [hok] at hfail
      | false =>
        cases hG : env.fetchWith "GET" (finalUrlOf env url) with
        | ok r2 =>
          obtain ⟨uo, huo⟩ := Option.isSome_iff_exists.mp (hparse "GET" r2 hG)
          rw [hderive3 r2 uo (Or.inr ⟨r, hH, hok⟩) hG huo] at hfail
          simp at hfail
        | error e =>
          exact ⟨Or.inr ⟨r, rfl, hok⟩, ⟨e, rfl⟩⟩
    | error e =>
      cases hG : env.fetchWith "GET" (finalUrlOf env url) with
      | ok r2 =>
        obtain ⟨uo, huo⟩ := Option.isSome_iff_exists.mp (hparse "GET" r2 hG)
        rw [hderive3 r2 uo (Or.inl ⟨e, hH⟩) hG huo] at hfail
        simp at hfail
      | error e2 =>
        exact ⟨Or.inl ⟨e, rfl⟩, ⟨e2, rfl⟩⟩
  · rintro ⟨hh, ⟨e, hg⟩⟩
    have hh2 : makeRequest env (finalUrlOf env url) "HEAD" = none ∨
        ∃ r0, makeRequest env (finalUrlOf env url) "HEAD" = some r0 ∧ r0.ok = false := by
      rcases hh with ⟨e0, he0⟩ | ⟨r0, hr0, hnok⟩
      · exact Or.inl (makeRequest_err env (finalUrlOf env url) "HEAD" e0 he0)
      · exact Or.inr ⟨r0, makeRequest_ok env (finalUrlOf env url) "HEAD" r0 hr0, hnok⟩
    have ht := verifyWebsiteTry_bothFail env (finalUrlOf env url) hh2
      (makeRequest_err env (finalUrlOf env url) "GET" e hg)
    unfold verifyWebsite
    rw [ht]

/-- Witness for C3 (amended) at an environment where both probes fail. -/
theorem C3_verifyWebsite_amended_witness :
    verifyWebsite envBothFail "site.example" = { isValid := some false } :=
  ((C3_verifyWebsite_amended envBothFail "site.example"
      (fun _ _ hr => Except.noConfusion hr)).1).mpr
    ⟨Or.inl ⟨netErr, rfl⟩, ⟨netErr, rfl⟩⟩

/-- Claim C3 is false as stated: the HEAD probe yields a usable 404 response
(no network-level failure), yet because the GET fallback then fails, the code
discards that usable response and returns the bare failure verdict, with no
status derived from it. -/
theorem C3_verifyWebsite_counterexample :
    (∃ r, envHeadOnly.fetchWith "HEAD" "https://site.example/" = .ok r ∧
      r.ok = false ∧ r.status = 404) ∧
    verifyWebsite envHeadOnly "https://site.example/" = { isValid := some false } := by
  exact ⟨⟨_, rfl, rfl, rfl⟩, rfl⟩

end TwitterInfo
